import Mathlib

/-!
Verification of the pump-autoswitch debounce aggregator (src/main.go).

The Go program runs a single reactive loop (`newPumpSwitcher`) that:
  * keeps a map `stationStates : map[string]bool` of the last state per station,
  * keeps `isPumpActive : bool`, the last pump state successfully actuated,
  * on each `StationState` event writes the map, resets a `time.Ticker`
    of period 5s, and recomputes only when the event is an activation,
  * on a ticker fire recomputes,
  * on context cancellation publishes pump-off once and terminates.
A recompute ORs all map values; when the result differs from `isPumpActive`
it publishes "on"/"off" to the pump command topic (`switchPump`) and, on
success, notifies "Pump turned on"/"Pump turned off" and updates
`isPumpActive`; on failure it notifies "Failed to switch pump!" and leaves
the state alone.

We embed the loop as a pure step function over an explicit state.  The MQTT
publish result (the actuator) and the Pushover POST result (the notifier)
are oracles `act : Bool → Bool` and `ntf : String → Bool` giving the
success of each call; the loop consults `act` for control flow and ignores
the result of `ntf`, exactly as the Go code does.  The `time.Ticker` is
modelled arithmetically: given the list of reset instants (one per inbound
event, from `ticker.Reset(duration)` at line 116), `tickerFires` decides
whether the ticker's channel delivers a tick at a given instant.
-/

namespace PumpAutoswitch

/-- A decoded zone event, mirroring Go's `StationState` struct
(src/main.go lines 27-30): the topic string and the boolean state. -/
structure StationState where
  station : String
  state : Bool
deriving Repr, DecidableEq

/-- The aggregator's mutable state: the `stationStates` map (modelled as an
association list, latest value per key) and the tracked pump state
`isPumpActive` (src/main.go lines 102, 109). -/
structure SwitcherState where
  stationStates : List (String × Bool)
  isPumpActive : Bool
deriving Repr, DecidableEq

/-- The aggregator's initial state: empty map, pump tracked off
(src/main.go lines 102 and 109). -/
def initState : SwitcherState := ⟨[], false⟩

/-- Go map assignment `stationStates[state.station] = state.state`
(src/main.go line 115): replace the entry for the key if present,
otherwise add it. -/
def setStation : List (String × Bool) → String → Bool → List (String × Bool)
  | [], z, b => [(z, b)]
  | (k, v) :: rest, z, b =>
      if k = z then (z, b) :: rest else (k, v) :: setStation rest z b

/-- Lookup in the station map. -/
def getStation : List (String × Bool) → String → Option Bool
  | [], _ => none
  | (k, v) :: rest, z => if k = z then some v else getStation rest z

/-- The OR-reduction `p := false; for _, s := range stationStates { p = p || s }`
(src/main.go lines 131-134).  Go map iteration order is unspecified, but OR
is commutative and associative, so a left fold over the association list is
faithful. -/
def desiredOf (tbl : List (String × Bool)) : Bool :=
  tbl.foldl (fun acc kv => acc || kv.2) false

/-- The fixed MQTT topic `switchPump` publishes to (src/main.go line 167). -/
def pumpCommandTopic : String := "shellies/pump/relay/0/command"

/-- The payload computed by `switchPump` (src/main.go lines 160-163):
`"on"` when the desired state is true, `"off"` otherwise. -/
def switchPumpPayload (active : Bool) : String := if active then "on" else "off"

/-- The debounce duration in seconds: `duration := 5 * time.Second`
(src/main.go line 105). -/
def debounceDuration : Nat := 5

/-- An observable side effect of one loop iteration: an MQTT publish made by
`switchPump`, or a Pushover call made by `notify` together with the success
flag the notifier returned (the loop never reads that flag). -/
inductive Action where
  | publish (topic payload : String)
  | notifyCall (message : String) (ok : Bool)
deriving Repr, DecidableEq

/-- An action with the notifier's returned result erased: just which call
was made with which argument. -/
inductive Call where
  | pub (topic payload : String)
  | note (message : String)
deriving Repr, DecidableEq

/-- Forget the result component of an action. -/
def Action.call : Action → Call
  | .publish t p => .pub t p
  | .notifyCall m _ => .note m

/-- One of the three wakeup sources of the `select` loop
(src/main.go lines 111-129): an inbound station event, a ticker fire,
or context cancellation (shutdown). -/
inductive LoopInput where
  | stationEvent (station : String) (state : Bool)
  | tick
  | ctxDone
deriving Repr, DecidableEq

/-- The recompute-and-act tail of the loop body (src/main.go lines 131-152):
OR the map; if the result equals `isPumpActive`, continue with no effects;
otherwise call `switchPump`; on failure notify "Failed to switch pump!" and
continue; on success notify the transition message and record the new pump
state.  `act b` is the success of `switchPump(client, b)`; `ntf m` is the
result of `notify(m)`, which the loop ignores. -/
def recompute (act : Bool → Bool) (ntf : String → Bool) (s : SwitcherState) :
    SwitcherState × List Action :=
  let p := desiredOf s.stationStates
  if p = s.isPumpActive then
    (s, [])
  else if act p then
    let message := if p then "Pump turned on" else "Pump turned off"
    ({ s with isPumpActive := p },
     [Action.publish pumpCommandTopic (switchPumpPayload p),
      Action.notifyCall message (ntf message)])
  else
    (s, [Action.publish pumpCommandTopic (switchPumpPayload p),
         Action.notifyCall "Failed to switch pump!" (ntf "Failed to switch pump!")])

/-- One iteration of the `select` loop (src/main.go lines 110-153).  Returns
the next state, the actions performed, and whether the loop continues.
On a station event the map is written and, only when the event is an
activation, the recompute runs in the same iteration (`if !state.state
{ continue }`, lines 118-120); the ticker reset at line 116 is modelled
separately by `tickerFires`.  On a tick the recompute runs.  On shutdown
the loop publishes pump-off unconditionally, closes the channel and
returns (lines 125-128). -/
def step (act : Bool → Bool) (ntf : String → Bool) (s : SwitcherState) :
    LoopInput → SwitcherState × List Action × Bool
  | .stationEvent z b =>
      let s' : SwitcherState := { s with stationStates := setStation s.stationStates z b }
      if b then
        let r := recompute act ntf s'
        (r.1, r.2, true)
      else
        (s', [], true)
  | .tick =>
      let r := recompute act ntf s
      (r.1, r.2, true)
  | .ctxDone =>
      (s, [Action.publish pumpCommandTopic (switchPumpPayload false)], false)

/-- Run the loop over a finite sequence of wakeups, stopping early when an
iteration reports termination, accumulating all actions in order. -/
def runLoop (act : Bool → Bool) (ntf : String → Bool) (s : SwitcherState) :
    List LoopInput → SwitcherState × List Action
  | [] => (s, [])
  | i :: rest =>
      let r := step act ntf s i
      if r.2.2 then
        let r' := runLoop act ntf r.1 rest
        (r'.1, r.2.1 ++ r'.2)
      else
        (r.1, r.2.1)

/-- The last state recorded for a given station by the events of a trace,
if any: the latest `stationEvent` for that station wins. -/
def lastEvent : List LoopInput → String → Option Bool
  | [], _ => none
  | i :: rest, z =>
      match lastEvent rest z with
      | some b => some b
      | none =>
          match i with
          | .stationEvent z' b => if z' = z then some b else none
          | _ => none

/-- The instant of the most recent ticker reset strictly before `t`; the
ticker was created at instant 0 (`time.NewTicker(duration)`,
src/main.go line 106), so with no earlier reset the answer is 0. -/
def lastResetBefore (resets : List Nat) (t : Nat) : Nat :=
  resets.foldl (fun acc r => if r < t then max acc r else acc) 0

/-- Whether the `time.Ticker` delivers a tick at instant `t`, given the
period `D` and the instants at which `ticker.Reset(duration)` was called
(src/main.go line 116, once per inbound event).  A Go ticker fires
periodically: at `r + k*D` for every `k ≥ 1`, where `r` is the most recent
reset (or the creation instant 0). -/
def tickerFires (D : Nat) (resets : List Nat) (t : Nat) : Bool :=
  let r := lastResetBefore resets t
  decide (r < t) && decide ((t - r) % D = 0)

/-- The topic namespace the main loop filters on:
`strings.HasPrefix(msg.Topic(), "opensprinkler/station")`
(src/main.go line 79). -/
def zoneTopicNamespace : String := "opensprinkler/station"

/-- Character-level test that the second list starts with the first,
modelling Go's `strings.HasPrefix`. -/
def leadsWith : List Char → List Char → Bool
  | [], _ => true
  | _ :: _, [] => false
  | c :: cs, d :: ds => c = d && leadsWith cs ds

/-- Whether a topic falls in the zone namespace (src/main.go line 79). -/
def topicInZoneNamespace (topic : String) : Bool :=
  leadsWith zoneTopicNamespace.data topic.data

/-- The inbound-message boundary of `main` (src/main.go lines 79-91).
JSON decoding of the body is done by the external `encoding/json` library;
we take its outcome as `decoded : Option Int`, the value of the `state`
field, or `none` when `Decode` returned an error.  For a topic in the zone
namespace, a decode error drops the message (`continue`, line 87) and any
decoded value `st` produces the event `StationState{topic, st == 1}`
(line 90); topics outside the namespace produce nothing. -/
def handleZoneMessage (topic : String) (decoded : Option Int) : Option StationState :=
  if topicInZoneNamespace topic then
    match decoded with
    | none => none
    | some st => some ⟨topic, decide (st = 1)⟩
  else
    none

/-- The loop inputs an inbound message contributes: one station event when
the boundary produced one, nothing otherwise. -/
def messageEvents (topic : String) (decoded : Option Int) : List LoopInput :=
  match handleZoneMessage topic decoded with
  | some e => [LoopInput.stationEvent e.station e.state]
  | none => []

/-- The number of notifier calls among a list of actions. -/
def countNote (as : List Action) : Nat :=
  (as.filter fun a =>
    match a with
    | Action.notifyCall _ _ => true
    | _ => false).length

/-! Helper lemmas. -/

/-- A recompute never touches the station map (src/main.go lines 131-152
only read `stationStates`). -/
theorem recompute_stationStates (act : Bool → Bool) (ntf : String → Bool)
    (s : SwitcherState) :
    (recompute act ntf s).1.stationStates = s.stationStates := by
  unfold recompute
  dsimp only
  split
  · rfl
  · split <;> rfl

/-- When every actuation succeeds, a recompute leaves the tracked pump
state equal to the OR-reduction of the station map. -/
theorem recompute_isPumpActive_top (ntf : String → Bool) (s : SwitcherState) :
    (recompute (fun _ => true) ntf s).1.isPumpActive = desiredOf s.stationStates := by
  unfold recompute
  dsimp only
  split
  · exact (by assumption : desiredOf s.stationStates = s.isPumpActive).symm
  · rfl

/-- Only the shutdown wakeup terminates the loop. -/
theorem step_cont (act : Bool → Bool) (ntf : String → Bool) (s : SwitcherState)
    (i : LoopInput) (h : i ≠ LoopInput.ctxDone) :
    (step act ntf s i).2.2 = true := by
  cases i with
  | stationEvent z b =>
      cases b <;> simp [step]
  | tick => rfl
  | ctxDone => exact absurd rfl h

/-- Running a trace with no shutdown wakeup followed by another trace is
running the first and continuing from its final state. -/
theorem runLoop_append (act : Bool → Bool) (ntf : String → Bool)
    (t₁ t₂ : List LoopInput) (h : LoopInput.ctxDone ∉ t₁) (s : SwitcherState) :
    runLoop act ntf s (t₁ ++ t₂) =
      ((runLoop act ntf (runLoop act ntf s t₁).1 t₂).1,
       (runLoop act ntf s t₁).2 ++ (runLoop act ntf (runLoop act ntf s t₁).1 t₂).2) := by
  induction t₁ generalizing s with
  | nil => simp [runLoop]
  | cons i t₁ ih =>
      have hi : i ≠ LoopInput.ctxDone := by
        intro e
        exact h (e ▸ List.mem_cons_self i t₁)
      have h' : LoopInput.ctxDone ∉ t₁ := fun hm => h (List.mem_cons_of_mem _ hm)
      simp only [List.cons_append, runLoop, step_cont act ntf s i hi, if_true,
        List.append_eq, ih h' (step act ntf s i).1, List.append_assoc]

/-- A single timer-fire wakeup is exactly one recompute. -/
theorem runLoop_tick (act : Bool → Bool) (ntf : String → Bool) (s : SwitcherState) :
    runLoop act ntf s [LoopInput.tick] = recompute act ntf s := by
  simp [runLoop, step]

/-- Lookup after a map write: the written key reads back the new value,
every other key is untouched. -/
theorem getStation_setStation (tbl : List (String × Bool)) (z : String) (b : Bool)
    (z' : String) :
    getStation (setStation tbl z b) z' =
      if z = z' then some b else getStation tbl z' := by
  induction tbl with
  | nil => rfl
  | cons kv rest ih =>
      obtain ⟨k, v⟩ := kv
      by_cases hk : k = z
      · subst hk
        by_cases hz : k = z' <;> simp [setStation, getStation, hz]
      · by_cases h1 : k = z' <;> by_cases h2 : z = z'
        · exact absurd (h1.trans h2.symm) hk
        · have h2' : ¬z' = z := fun e => h2 e.symm
          simp [setStation, getStation, hk, h1, h2, h2']
        · subst h2
          simp [setStation, getStation, hk, h1, ih]
        · simp [setStation, getStation, hk, h1, h2, ih]

/-- After running any trace without shutdown, the station map holds the
latest event per station, falling back to the starting map for stations
the trace never mentions. -/
theorem getStation_runLoop (act : Bool → Bool) (ntf : String → Bool)
    (trace : List LoopInput) (h : LoopInput.ctxDone ∉ trace) (s : SwitcherState)
    (z : String) :
    getStation (runLoop act ntf s trace).1.stationStates z =
      match lastEvent trace z with
      | some b => some b
      | none => getStation s.stationStates z := by
  induction trace generalizing s with
  | nil => simp [runLoop, lastEvent]
  | cons i rest ih =>
      have h' : LoopInput.ctxDone ∉ rest := fun hm => h (List.mem_cons_of_mem _ hm)
      cases i with
      | stationEvent z' b =>
          have hc := step_cont act ntf s (LoopInput.stationEvent z' b) (by simp)
          have htbl :
              (step act ntf s (LoopInput.stationEvent z' b)).1.stationStates =
                setStation s.stationStates z' b := by
            cases b <;> simp [step, recompute_stationStates]
          simp only [runLoop, hc, if_true]
          rw [ih h']
          cases hle : lastEvent rest z with
          | some b₀ => simp [lastEvent, hle]
          | none =>
              rw [htbl, getStation_setStation]
              by_cases hz : z' = z <;> simp [lastEvent, hle, hz]
      | tick =>
          have hc := step_cont act ntf s LoopInput.tick (by simp)
          simp only [runLoop, hc, if_true]
          rw [ih h']
          have htbl : (step act ntf s LoopInput.tick).1.stationStates = s.stationStates :=
            recompute_stationStates act ntf s
          rw [htbl]
          cases hle : lastEvent rest z with
          | some b₀ => simp [lastEvent, hle]
          | none => simp [lastEvent, hle]
      | ctxDone => exact absurd (List.mem_cons_self _ _) h

/-- The latest event of a concatenated trace: the second part wins when it
mentions the station. -/
theorem lastEvent_append (t₁ t₂ : List LoopInput) (z : String) :
    lastEvent (t₁ ++ t₂) z =
      match lastEvent t₂ z with
      | some b => some b
      | none => lastEvent t₁ z := by
  induction t₁ with
  | nil =>
      cases hle : lastEvent t₂ z <;> simp [lastEvent, hle]
  | cons i rest ih =>
      simp only [List.cons_append, lastEvent, List.append_eq, ih]
      cases lastEvent t₂ z <;> cases lastEvent rest z <;> rfl

/-- The fold computing `lastResetBefore` never goes below its accumulator. -/
theorem lastResetFold_ge_init (t : Nat) (resets : List Nat) (acc : Nat) :
    acc ≤ resets.foldl (fun a r => if r < t then max a r else a) acc := by
  induction resets generalizing acc with
  | nil => exact Nat.le_refl acc
  | cons r rest ih =>
      refine Nat.le_trans ?_ (ih _)
      by_cases hr : r < t
      · simp [hr, Nat.le_max_left]
      · simp [hr]

/-- Any reset before `t` bounds the `lastResetBefore` fold from below,
whatever the accumulator. -/
theorem le_lastResetFold (t r : Nat) (resets : List Nat) (acc : Nat)
    (hm : r ∈ resets) (hrt : r < t) :
    r ≤ resets.foldl (fun a x => if x < t then max a x else a) acc := by
  induction resets generalizing acc with
  | nil => cases hm
  | cons a rest ih =>
      rcases List.mem_cons.mp hm with h | h
      · subst h
        simp only [List.foldl, if_pos hrt]
        exact Nat.le_trans (Nat.le_max_right acc r) (lastResetFold_ge_init t rest _)
      · exact ih _ h

/-- Any reset before `t` bounds `lastResetBefore` from below. -/
theorem le_lastResetBefore (resets : List Nat) (t r : Nat) (hm : r ∈ resets)
    (hrt : r < t) : r ≤ lastResetBefore resets t :=
  le_lastResetFold t r resets 0 hm hrt

/-- An upper bound on every reset before `t` (and on the accumulator) is an
upper bound on the `lastResetBefore` fold. -/
theorem lastResetFold_le (t m : Nat) (resets : List Nat) (acc : Nat)
    (hacc : acc ≤ m) (hall : ∀ x ∈ resets, x < t → x ≤ m) :
    resets.foldl (fun a x => if x < t then max a x else a) acc ≤ m := by
  induction resets generalizing acc with
  | nil => exact hacc
  | cons a rest ih =>
      simp only [List.foldl]
      refine ih _ ?_ (fun x hx hxt => hall x (List.mem_cons_of_mem _ hx) hxt)
      by_cases ha : a < t
      · simp only [if_pos ha]
        exact Nat.max_le.mpr ⟨hacc, hall a (List.mem_cons_self _ _) ha⟩
      · simpa [ha] using hacc

/-- An upper bound on every reset before `t` is an upper bound on
`lastResetBefore`. -/
theorem lastResetBefore_le (resets : List Nat) (t m : Nat)
    (hall : ∀ x ∈ resets, x < t → x ≤ m) : lastResetBefore resets t ≤ m :=
  lastResetFold_le t m resets 0 (Nat.zero_le m) hall

/-- A ticker fire comes at least one full period after the most recent
reset: the ticker never fires within `D` of a reset. -/
theorem tickerFires_ge (D : Nat) (resets : List Nat) (t : Nat)
    (h : tickerFires D resets t = true) :
    lastResetBefore resets t + D ≤ t := by
  unfold tickerFires at h
  rcases Bool.and_eq_true_iff.mp h with ⟨h1, h2⟩
  have hlt : lastResetBefore resets t < t := of_decide_eq_true h1
  have hmod : (t - lastResetBefore resets t) % D = 0 := of_decide_eq_true h2
  rcases Nat.eq_zero_or_pos D with hD | hD
  · subst hD
    rw [Nat.mod_zero] at hmod
    omega
  · have hdvd : D ∣ t - lastResetBefore resets t := Nat.dvd_of_mod_eq_zero hmod
    have := Nat.le_of_dvd (by omega) hdvd
    omega

/-- A recompute's resulting state and the calls it makes do not depend on
the notifier's returned results: the loop discards `notify`'s error. -/
theorem recompute_ntf_indep (act : Bool → Bool) (ntf1 ntf2 : String → Bool)
    (s : SwitcherState) :
    (recompute act ntf1 s).1 = (recompute act ntf2 s).1 ∧
      (recompute act ntf1 s).2.map Action.call = (recompute act ntf2 s).2.map Action.call := by
  unfold recompute
  dsimp only
  split
  · exact ⟨rfl, rfl⟩
  · split <;> exact ⟨rfl, rfl⟩

/-- One loop iteration's resulting state, continuation flag and calls do
not depend on the notifier's returned results. -/
theorem step_ntf_indep (act : Bool → Bool) (ntf1 ntf2 : String → Bool)
    (s : SwitcherState) (i : LoopInput) :
    (step act ntf1 s i).1 = (step act ntf2 s i).1 ∧
      (step act ntf1 s i).2.1.map Action.call = (step act ntf2 s i).2.1.map Action.call ∧
      (step act ntf1 s i).2.2 = (step act ntf2 s i).2.2 := by
  cases i with
  | stationEvent z b =>
      cases b with
      | false => exact ⟨rfl, rfl, rfl⟩
      | true =>
          obtain ⟨h1, h2⟩ :=
            recompute_ntf_indep act ntf1 ntf2
              { s with stationStates := setStation s.stationStates z true }
          exact ⟨h1, h2, rfl⟩
  | tick =>
      obtain ⟨h1, h2⟩ := recompute_ntf_indep act ntf1 ntf2 s
      exact ⟨h1, h2, rfl⟩
  | ctxDone => exact ⟨rfl, rfl, rfl⟩

/-- Every loop iteration makes at most one notifier call, whatever the
oracles return. -/
theorem step_countNote_le (act : Bool → Bool) (ntf : String → Bool)
    (s : SwitcherState) (i : LoopInput) :
    countNote (step act ntf s i).2.1 ≤ 1 := by
  cases i with
  | stationEvent z b =>
      cases b with
      | false => exact Nat.zero_le 1
      | true =>
          show countNote (recompute act ntf _).2 ≤ 1
          unfold recompute
          dsimp only
          split
          · exact Nat.zero_le 1
          · split <;> simp [countNote]
  | tick =>
      show countNote (recompute act ntf s).2 ≤ 1
      unfold recompute
      dsimp only
      split
      · exact Nat.zero_le 1
      · split <;> simp [countNote]
  | ctxDone => simp [step, countNote]

/-! Claim theorems. -/

/-- Claim C1: for every finite sequence of zone events processed by the
loop and followed by a debounce-timer fire, if every actuator call
succeeds, the tracked pump state `isPumpActive` equals the OR-reduction of
the station map, and the station map holds exactly the latest recorded
state per zone identifier. -/
theorem C1_quiescence_or_reduction (ntf : String → Bool)
    (events : List (String × Bool)) :
    ((runLoop (fun _ => true) ntf initState
        (events.map (fun e => LoopInput.stationEvent e.1 e.2) ++ [LoopInput.tick])).1.isPumpActive =
      desiredOf (runLoop (fun _ => true) ntf initState
        (events.map (fun e => LoopInput.stationEvent e.1 e.2) ++ [LoopInput.tick])).1.stationStates) ∧
    ∀ z, getStation (runLoop (fun _ => true) ntf initState
        (events.map (fun e => LoopInput.stationEvent e.1 e.2) ++ [LoopInput.tick])).1.stationStates z =
      lastEvent (events.map (fun e => LoopInput.stationEvent e.1 e.2) ++ [LoopInput.tick]) z := by
  have hnot : LoopInput.ctxDone ∉ events.map (fun e => LoopInput.stationEvent e.1 e.2) := by
    simp
  constructor
  · rw [runLoop_append _ _ _ _ hnot, runLoop_tick]
    dsimp only
    rw [recompute_stationStates, recompute_isPumpActive_top]
  · intro z
    have hfull :
        LoopInput.ctxDone ∉
          events.map (fun e => LoopInput.stationEvent e.1 e.2) ++ [LoopInput.tick] := by
      simp
    rw [getStation_runLoop _ _ _ hfull initState z]
    cases lastEvent (events.map (fun e => LoopInput.stationEvent e.1 e.2) ++ [LoopInput.tick]) z <;>
      rfl

/-- Claim C4: a recompute whose desired value equals the tracked pump
state makes no actuator call, no notifier call, and changes no state;
likewise for the whole timer-fire iteration. -/
theorem C4_idempotent_guard (act : Bool → Bool) (ntf : String → Bool)
    (s : SwitcherState) (h : desiredOf s.stationStates = s.isPumpActive) :
    recompute act ntf s = (s, []) ∧
    step act ntf s LoopInput.tick = (s, [], true) := by
  have h1 : recompute act ntf s = (s, []) := by
    unfold recompute
    dsimp only
    rw [if_pos h]
  exact ⟨h1, by simp [step, h1]⟩

/-- Witness for C4 at the initial state, whose desired value `false`
equals the tracked pump state. -/
theorem C4_witness :
    recompute (fun _ => true) (fun _ => true) initState = (initState, []) ∧
    step (fun _ => true) (fun _ => true) initState LoopInput.tick = (initState, [], true) :=
  C4_idempotent_guard (fun _ => true) (fun _ => true) initState rfl

/-- Claim C6: on the shutdown wakeup the loop invokes the actuator with
`false` exactly once (one publish of payload "off"), for every tracked
state `s` and every actuator outcome `act`, and terminates (the
continuation flag is `false`: the goroutine closes the channel and
returns). -/
theorem C6_shutdown_failsafe (act : Bool → Bool) (ntf : String → Bool)
    (s : SwitcherState) :
    step act ntf s LoopInput.ctxDone =
      (s, [Action.publish pumpCommandTopic (switchPumpPayload false)], false) := rfl

/-- Claim C10: at startup the station map is empty and the tracked pump
state is false, the OR-reduction over the empty map is false, and any
number of timer fires before the first event leaves the state unchanged
and performs no actuator or notifier call. -/
theorem C10_startup_ticks_noop :
    desiredOf initState.stationStates = false ∧
    initState.isPumpActive = false ∧
    ∀ (act : Bool → Bool) (ntf : String → Bool) (n : Nat),
      runLoop act ntf initState (List.replicate n LoopInput.tick) = (initState, []) := by
  refine ⟨rfl, rfl, fun act ntf n => ?_⟩
  induction n with
  | zero => rfl
  | succ n ih =>
      rw [List.replicate_succ]
      have hstep : step act ntf initState LoopInput.tick = (initState, [], true) := by
        simp [step, recompute, desiredOf, initState]
      simp [runLoop, hstep, ih]

/-- Claim C2: when a recompute's desired value differs from the tracked
state and the actuator call fails, the loop makes that actuator call,
notifies "Failed to switch pump!", and leaves the state unchanged; and any
subsequent recompute from that state (same desired value) calls the
actuator again first, whatever the oracles then return. -/
theorem C2_actuation_failure_retry (act : Bool → Bool) (ntf : String → Bool)
    (s : SwitcherState)
    (hneq : desiredOf s.stationStates ≠ s.isPumpActive)
    (hfail : act (desiredOf s.stationStates) = false) :
    recompute act ntf s =
      (s, [Action.publish pumpCommandTopic (switchPumpPayload (desiredOf s.stationStates)),
           Action.notifyCall "Failed to switch pump!" (ntf "Failed to switch pump!")]) ∧
    ∀ (act2 : Bool → Bool) (ntf2 : String → Bool),
      (recompute act2 ntf2 s).2.head? =
        some (Action.publish pumpCommandTopic (switchPumpPayload (desiredOf s.stationStates))) := by
  constructor
  · unfold recompute
    dsimp only
    rw [if_neg hneq, if_neg (by simp [hfail])]
  · intro act2 ntf2
    unfold recompute
    dsimp only
    rw [if_neg hneq]
    split <;> rfl

/-- Witness for C2: one active station, pump tracked off, failing
actuator. -/
theorem C2_witness :
    (recompute (fun _ => false) (fun _ => false) ⟨[("a", true)], false⟩ =
      (⟨[("a", true)], false⟩,
       [Action.publish pumpCommandTopic (switchPumpPayload true),
        Action.notifyCall "Failed to switch pump!" false])) ∧
    (recompute (fun _ => true) (fun _ => true) ⟨[("a", true)], false⟩).2.head? =
      some (Action.publish pumpCommandTopic (switchPumpPayload true)) := by
  have h := C2_actuation_failure_retry (fun _ => false) (fun _ => false)
    ⟨[("a", true)], false⟩ (by decide) rfl
  exact ⟨h.1, h.2 (fun _ => true) (fun _ => true)⟩

/-- Claim C7: when a recompute's desired value differs from the tracked
state and the actuator call succeeds, the iteration emits exactly one
actuator command, with payload "on" for true and "off" for false, exactly
one notifier call, "Pump turned on" for true and "Pump turned off" for
false, and sets `isPumpActive` to the desired value. -/
theorem C7_transition_effects (act : Bool → Bool) (ntf : String → Bool)
    (s : SwitcherState)
    (hneq : desiredOf s.stationStates ≠ s.isPumpActive)
    (hok : act (desiredOf s.stationStates) = true) :
    recompute act ntf s =
      ({ s with isPumpActive := desiredOf s.stationStates },
       [Action.publish pumpCommandTopic
          (if desiredOf s.stationStates then "on" else "off"),
        Action.notifyCall
          (if desiredOf s.stationStates then "Pump turned on" else "Pump turned off")
          (ntf (if desiredOf s.stationStates
            then "Pump turned on" else "Pump turned off"))]) := by
  unfold recompute
  dsimp only
  rw [if_neg hneq, if_pos hok]
  rfl

/-- Witness for C7: one active station, pump tracked off, succeeding
actuator: pump turned on with the matching payload and message. -/
theorem C7_witness :
    recompute (fun _ => true) (fun _ => true) ⟨[("a", true)], false⟩ =
      (⟨[("a", true)], true⟩,
       [Action.publish pumpCommandTopic "on",
        Action.notifyCall "Pump turned on" true]) := by
  have h := C7_transition_effects (fun _ => true) (fun _ => true)
    ⟨[("a", true)], false⟩ (by decide) rfl
  simpa using h

/-- Claim C3: an activation event runs the recompute in the same loop
iteration; a deactivation event alone produces no recompute (no actions)
in its iteration; and after the ticker reset at an event's instant `t`,
no timer fire happens strictly between `t` and `t + D`, so the recompute
can only come at least `D` after the last event (or from a later
activation). -/
theorem C3_activation_immediate (act : Bool → Bool) (ntf : String → Bool)
    (s : SwitcherState) (z : String) (D : Nat) (resets : List Nat) (t u : Nat)
    (ht : t ∈ resets) (htu : t < u) (hu : u < t + D) :
    (step act ntf s (LoopInput.stationEvent z true) =
      ((recompute act ntf { s with stationStates := setStation s.stationStates z true }).1,
       (recompute act ntf { s with stationStates := setStation s.stationStates z true }).2,
       true)) ∧
    (step act ntf s (LoopInput.stationEvent z false) =
      ({ s with stationStates := setStation s.stationStates z false }, [], true)) ∧
    tickerFires D resets u = false := by
  refine ⟨rfl, rfl, ?_⟩
  cases hf : tickerFires D resets u with
  | false => rfl
  | true =>
      exfalso
      have h1 := tickerFires_ge D resets u hf
      have h2 := le_lastResetBefore resets u t ht htu
      omega

/-- Witness for C3: a reset at instant 3 with period 5 suppresses the
fire at instant 6, and the step equalities hold at a concrete state. -/
theorem C3_witness :
    (step (fun _ => true) (fun _ => true) initState (LoopInput.stationEvent "a" false) =
      ({ initState with stationStates := setStation initState.stationStates "a" false },
       [], true)) ∧
    tickerFires 5 [3] 6 = false := by
  have h := C3_activation_immediate (fun _ => true) (fun _ => true) initState "a"
    5 [3] 3 6 (by decide) (by decide) (by decide)
  exact ⟨h.2.1, h.2.2⟩

/-- Claim C5, counterexample: the code's timer is `time.NewTicker`, which
is periodic, not single-shot.  With no events at all (no resets), the
ticker fires at instant 5 and then fires again at instant 10 without any
intervening reset, contradicting "after it fires it does not fire again
until another ZoneEvent resets it". -/
theorem C5_counterexample :
    tickerFires 5 [] 5 = true ∧ tickerFires 5 [] 10 = true := by decide

/-- Claim C5 as amended: the debounce timer is a periodic ticker of fixed
duration `D` (default 5s, `debounceDuration`).  Every event resets it to
fire `D` from the event; it never fires within `D` of the most recent
reset (so it never fires while events arrive more frequently than `D`);
but after firing it keeps firing every `D` until the next event resets it,
rather than staying quiet until a reset. -/
theorem C5_periodic_ticker (D : Nat) (hD : 0 < D) (resets : List Nat) (r : Nat)
    (hr : r ∈ resets) (hlast : ∀ x ∈ resets, x ≤ r) :
    debounceDuration = 5 ∧
    (∀ t, tickerFires D resets t = true → lastResetBefore resets t + D ≤ t) ∧
    (∀ u, r < u → u < r + D → tickerFires D resets u = false) ∧
    (∀ k, 0 < k → tickerFires D resets (r + k * D) = true) := by
  refine ⟨rfl, fun t => tickerFires_ge D resets t, ?_, ?_⟩
  · intro u h1 h2
    cases hf : tickerFires D resets u with
    | false => rfl
    | true =>
        exfalso
        have h3 := tickerFires_ge D resets u hf
        have h4 := le_lastResetBefore resets u r hr h1
        omega
  · intro k hk
    have hru : r < r + k * D := by
      have : 0 < k * D := Nat.mul_pos hk hD
      omega
    have hge : r ≤ lastResetBefore resets (r + k * D) :=
      le_lastResetBefore resets _ r hr hru
    have hle : lastResetBefore resets (r + k * D) ≤ r :=
      lastResetBefore_le resets _ r (fun x hx _ => hlast x hx)
    have heq : lastResetBefore resets (r + k * D) = r := Nat.le_antisymm hle hge
    unfold tickerFires
    rw [heq]
    simp only [Bool.and_eq_true, decide_eq_true_eq]
    refine ⟨hru, ?_⟩
    have hsub : r + k * D - r = k * D := by omega
    rw [hsub]
    exact Nat.mul_mod_left k D

/-- Witness for the amended C5 with period 5 and a single reset at 2: no
fire at 4 (within the period), a fire at 12 (two periods later, no further
reset needed). -/
theorem C5_witness :
    tickerFires 5 [2] 4 = false ∧ tickerFires 5 [2] 12 = true := by
  have h := C5_periodic_ticker 5 (by decide) [2] 2 (by decide) (by decide)
  exact ⟨h.2.2.1 4 (by decide) (by decide), h.2.2.2 2 (by decide)⟩

/-- Claim C8: for a message on a topic in the zone namespace, a decoded
body with `state == 1` yields an event with `active = true`, any other
decoded body yields `active = false`, and an undecodable body yields no
event at all, so feeding its (empty) contribution to the loop changes
nothing and performs no call. -/
theorem C8_message_boundary (topic : String)
    (htop : topicInZoneNamespace topic = true) :
    handleZoneMessage topic (some 1) = some ⟨topic, true⟩ ∧
    (∀ n : Int, n ≠ 1 → handleZoneMessage topic (some n) = some ⟨topic, false⟩) ∧
    handleZoneMessage topic none = none ∧
    (∀ (act : Bool → Bool) (ntf : String → Bool) (s : SwitcherState),
      runLoop act ntf s (messageEvents topic none) = (s, [])) := by
  refine ⟨?_, ?_, ?_, ?_⟩
  · have h1 : (decide ((1 : Int) = 1)) = true := by decide
    simp [handleZoneMessage, htop, h1]
  · intro n hn
    have h1 : (decide (n = 1)) = false := decide_eq_false hn
    simp [handleZoneMessage, htop, h1]
  · simp [handleZoneMessage, htop]
  · intro act ntf s
    simp [messageEvents, handleZoneMessage, htop, runLoop]

/-- Witness for C8 at a concrete station topic. -/
theorem C8_witness :
    handleZoneMessage "opensprinkler/station/0" (some 1) =
      some ⟨"opensprinkler/station/0", true⟩ ∧
    handleZoneMessage "opensprinkler/station/0" (some 0) =
      some ⟨"opensprinkler/station/0", false⟩ ∧
    handleZoneMessage "opensprinkler/station/0" none = none := by
  have h := C8_message_boundary "opensprinkler/station/0" (by decide)
  exact ⟨h.1, h.2.1 0 (by decide), h.2.2.1⟩

/-- Over a whole run, the reached states and the calls made are unchanged
when the notifier's returned results change. -/
theorem runLoop_ntf_indep (act : Bool → Bool) (ntf1 ntf2 : String → Bool)
    (s : SwitcherState) (trace : List LoopInput) :
    (runLoop act ntf1 s trace).1 = (runLoop act ntf2 s trace).1 ∧
    (runLoop act ntf1 s trace).2.map Action.call =
      (runLoop act ntf2 s trace).2.map Action.call := by
  induction trace generalizing s with
  | nil => exact ⟨rfl, rfl⟩
  | cons i rest ih =>
      obtain ⟨hs, ha, hc⟩ := step_ntf_indep act ntf1 ntf2 s i
      simp only [runLoop]
      rw [← hc, ← hs]
      cases hcond : (step act ntf1 s i).2.2 with
      | false =>
          simp [hcond, ha]
      | true =>
          simp only [hcond, if_true]
          obtain ⟨ih1, ih2⟩ := ih (step act ntf1 s i).1
          exact ⟨ih1, by simp only [List.map_append, ha, ih2]⟩

/-- Claim C9: the notifier's success or failure has no effect on the
aggregator: two runs identical except for the notifier's returned results
reach the same states and make the same calls (same actuator commands,
same notification messages), and each iteration makes at most one notifier
call — a failed notification is never retried or escalated. -/
theorem C9_notifier_result_ignored (act : Bool → Bool) (ntf1 ntf2 : String → Bool)
    (s : SwitcherState) (trace : List LoopInput) :
    (runLoop act ntf1 s trace).1 = (runLoop act ntf2 s trace).1 ∧
    (runLoop act ntf1 s trace).2.map Action.call =
      (runLoop act ntf2 s trace).2.map Action.call ∧
    ∀ i, countNote (step act ntf1 s i).2.1 ≤ 1 := by
  obtain ⟨h1, h2⟩ := runLoop_ntf_indep act ntf1 ntf2 s trace
  exact ⟨h1, h2, fun i => step_countNote_le act ntf1 s i⟩

end PumpAutoswitch
